import Mathlib

/-!
# Verification of the US-Stock-Prediction inference service

Shallow embedding of `US-Stock-Prediction/predict.py` (with the startup
wiring it shares with `train.py`): the dynamic request schema derived from
the training dataframe's dtypes, the joblib model loader, the `/predict`
handler (pydantic validation, column re-alignment, model invocation, label
mapping) and the `/health` handler.

Modelling conventions:
* JSON numbers are exact rationals (`ℚ`) or integers (`ℤ`); the service's
  numeric payloads are small JSON literals, for which this is faithful.
* A JSON object is an association list `List (String × Value)`; Python dict
  lookup is first-match lookup (request bodies parsed by FastAPI have
  unique keys, which theorems assume explicitly where it matters).
* The loaded pipeline is opaque: a function from a single row of values to
  the raw integer class code (`model.predict(input_df)[0]`).
* Exceptions are `Except`/`Option`; an unhandled exception inside the
  handler is the `serverError` outcome.
-/

namespace StockService

/-- A value kind as stored in the `feature_types` dict of predict.py:
either the python type `float`, the python type `int`, or (for a dtype
missing from `dtype_mapping`) the dtype's own string label kept verbatim
(`dtype_mapping.get(str(dtype), str(dtype))`, line 31). -/
inductive FieldKind where
  | float
  | int
  | rawLabel (label : String)
deriving DecidableEq

/-- predict.py lines 12-16: `dtype_mapping = {'float64': float, 'int64':
int, 'uint8': int}` combined with the lenient `.get(str(dtype), str(dtype))`
fallback of line 31. -/
def dtype_mapping (dtype : String) : FieldKind :=
  if dtype = "float64" then FieldKind.float
  else if dtype = "int64" then FieldKind.int
  else if dtype = "uint8" then FieldKind.int
  else FieldKind.rawLabel dtype

/-- predict.py lines 18, 30-32: the `feature_types` dict, built by iterating
`X.dtypes.items()` in dataframe column order. The input is the ordered
(column name, dtype string) listing of `X`; the output keeps that order. -/
def feature_types (cols : List (String × String)) : List (String × FieldKind) :=
  cols.map (fun c => (c.1, dtype_mapping c.2))

/-- A JSON value accepted for a feature field: a (rational-modelled) float
or an integer. -/
inductive Value where
  | vFloat (x : ℚ)
  | vInt (n : ℤ)
deriving DecidableEq

/-- Python dict / JSON-object field lookup: first pair with the given key. -/
def lookupField : List (String × Value) → String → Option Value
  | [], _ => none
  | p :: rest, name => if p.1 = name then some p.2 else lookupField rest name

/-- Pydantic v2 lax validation of one value against its declared field type
(the dynamic `InputData` model of predict.py lines 34-37): a `float` field
accepts a float, and coerces an int to float; an `int` field accepts an int,
and coerces a float only when it is integral; a field whose "type" is a raw
dtype label has no accepted values. -/
def coerceValue : FieldKind → Value → Option Value
  | FieldKind.float, Value.vFloat x => some (Value.vFloat x)
  | FieldKind.float, Value.vInt n => some (Value.vFloat (n : ℚ))
  | FieldKind.int, Value.vInt n => some (Value.vInt n)
  | FieldKind.int, Value.vFloat x =>
      if x.den = 1 then some (Value.vInt x.num) else none
  | FieldKind.rawLabel _, _ => none

/-- The validation error pydantic reports for one declared field of
`InputData`, if any: the field's name, when the field is missing from the
request or its value does not coerce to the declared type. All fields are
required (predict.py line 36: `create_model` receives bare types). -/
def fieldError (record : List (String × Value)) (f : String × FieldKind) :
    Option String :=
  match lookupField record f.1 with
  | none => some f.1
  | some v =>
    match coerceValue f.2 v with
    | none => some f.1
    | some _ => none

/-- All field names pydantic flags on this request (it collects every
field's error, not just the first). -/
def validationErrors (schema : List (String × FieldKind))
    (record : List (String × Value)) : List String :=
  schema.filterMap (fieldError record)

/-- `data.model_dump()` (predict.py line 65) of a successfully validated
request: one (name, coerced value) pair per declared field, in the field
declaration order of `InputData`, i.e. in `feature_types` order. Extra
request keys are absent: pydantic's default config ignores unknown fields. -/
def dumpedRecord (schema : List (String × FieldKind))
    (record : List (String × Value)) : List (String × Value) :=
  schema.filterMap (fun f =>
    ((lookupField record f.1).bind (coerceValue f.2)).map (fun v => (f.1, v)))

/-- FastAPI parsing of the request body into `InputData` (predict.py line
59): either a 422 validation error naming the offending fields, or the
validated model (represented by its `model_dump`). -/
def validateInput (schema : List (String × FieldKind))
    (record : List (String × Value)) :
    Except (List String) (List (String × Value)) :=
  match validationErrors schema record with
  | [] => Except.ok (dumpedRecord schema record)
  | errs => Except.error errs

/-- `input_df = input_df[X.columns]` (predict.py line 66): select the
columns in the dataframe's training order; a missing column raises
(`none`). -/
def reindexRow (cols : List String) (record : List (String × Value)) :
    Option (List Value) :=
  match cols with
  | [] => some []
  | c :: rest =>
    match lookupField record c, reindexRow rest record with
    | some v, some vs => some (v :: vs)
    | _, _ => none

/-- predict.py lines 53-56. -/
def prediction_mapping (code : ℤ) : Option String :=
  if code = 0 then some "stock_value_decrease"
  else if code = 1 then some "stock_value_increase"
  else none

/-- predict.py line 72: `prediction_mapping.get(raw_prediction[0],
"Unknown")`. -/
def resolveLabel (code : ℤ) : String :=
  (prediction_mapping code).getD "Unknown"

/-- The process-wide state the handlers read: the (column name, dtype)
listing of the reconstructed dataframe `X` (predict.py lines 24-28), from
which both `feature_types` and `X.columns` are derived, and the loaded
pipeline's single-row predict operation. -/
structure AppState where
  cols : List (String × String)
  modelPredict : List Value → ℤ

/-- Observable outcome of one `/predict` request. -/
inductive PredictResult where
  | ok (label : String)
  | validationError (fields : List String)
  | serverError
deriving DecidableEq

/-- predict.py lines 58-74: validate the body against `InputData`, build a
one-row dataframe from `model_dump()`, re-align it to `X.columns`, invoke
the model on the single row, and resolve the raw code through
`prediction_mapping` with the `"Unknown"` default. -/
def predict (st : AppState) (record : List (String × Value)) : PredictResult :=
  match validateInput (feature_types st.cols) record with
  | Except.error errs => PredictResult.validationError errs
  | Except.ok dumped =>
    match reindexRow (st.cols.map Prod.fst) dumped with
    | none => PredictResult.serverError
    | some row => PredictResult.ok (resolveLabel (st.modelPredict row))

/-- predict.py line 43. -/
def model_filename : String := "xgboost_model.joblib"

/-- Outcome of `joblib.load(model_filename)` (predict.py line 45): the file
is absent (`FileNotFoundError`), present but unreadable/corrupt (any other
exception, carrying its message), or successfully loaded. -/
inductive LoadOutcome (M : Type) where
  | fileNotFound
  | loadError (e : String)
  | loaded (m : M)

/-- predict.py lines 44-50: the try/except around `joblib.load`. A
`FileNotFoundError` is re-raised as an exception whose detail is
`"Model file '<name>' not found."`; any other load exception as
`"Error loading model: <e>"`. Both raises happen at module import time, so
they abort the process before the app serves anything. -/
def loadModel {M : Type} : LoadOutcome M → Except String M
  | LoadOutcome.loaded m => Except.ok m
  | LoadOutcome.fileNotFound =>
      Except.error ("Model file '" ++ model_filename ++ "' not found.")
  | LoadOutcome.loadError e => Except.error ("Error loading model: " ++ e)

/-- Module import of predict.py: derive the schema from the dataframe
listing and load the model; any load failure propagates as a fatal startup
error and no request-serving state is ever produced. -/
def startup {M : Type} (cols : List (String × String)) (load : LoadOutcome M) :
    Except String (List (String × FieldKind) × M) :=
  match loadModel load with
  | Except.error e => Except.error e
  | Except.ok m => Except.ok (feature_types cols, m)

/-- The JSON payload of `/health`. -/
structure HealthPayload where
  status : String
  model_loaded : Bool
  n_features : Option ℕ
deriving DecidableEq

/-- predict.py lines 77-85. `modelGlobal` is the state of the global name
`model`: `none` when `'model' in globals()` is false, `some none` when it is
bound to `None`, `some (some h)` when bound to a handle. `lenXColumns` is
the outcome of evaluating `len(X.columns)`, whose exceptions the handler
swallows into `n_features = None`. -/
def health {M : Type} (modelGlobal : Option (Option M))
    (lenXColumns : Except String ℕ) : HealthPayload :=
  { status := "ok"
  , model_loaded :=
      match modelGlobal with
      | some (some _) => true
      | _ => false
  , n_features :=
      match lenXColumns with
      | Except.ok n => some n
      | Except.error _ => none }

/-- `SimpleImputer(strategy='median').fit_transform` returns a float64
ndarray, so `X = pd.DataFrame(X_imputed, columns=X.columns)` (predict.py
lines 26-28) rebuilds the dataframe with every column dtype equal to
`float64`, whatever the original dtypes were. -/
def imputedCols (cols : List (String × String)) : List (String × String) :=
  cols.map (fun c => (c.1, "float64"))

/-- A request supplies, for every schema field, a value that coerces to the
field's declared type (pydantic accepts it). -/
def validRecord (schema : List (String × FieldKind))
    (record : List (String × Value)) : Prop :=
  ∀ f ∈ schema, ((lookupField record f.1).bind (coerceValue f.2)).isSome = true

instance (schema : List (String × FieldKind)) (record : List (String × Value)) :
    Decidable (validRecord schema record) := by
  unfold validRecord; infer_instance

/-- The spec's concrete scenario: FeatureSpec = [(revenue, Float),
(debt_ratio, Float), (employees, Integer)], as the dataframe listing it is
derived from. -/
def exampleCols : List (String × String) :=
  [("revenue", "float64"), ("debt_ratio", "float64"), ("employees", "int64")]

/-- The spec's concrete request `{"employees": 50, "revenue": 12.5,
"debt_ratio": 0.3}`, keys in arrival order. -/
def exampleRequest : List (String × Value) :=
  [("employees", Value.vInt 50), ("revenue", Value.vFloat 12.5),
   ("debt_ratio", Value.vFloat 0.3)]

/-- The record with every field not declared in the schema removed, used to
state that extra fields are ignored. -/
def keepSchemaFields (schema : List (String × FieldKind))
    (record : List (String × Value)) : List (String × Value) :=
  record.filter (fun p => decide (p.1 ∈ schema.map Prod.fst))

/-- The row the model should see, read directly off the raw request: for
each training column in order, the request's value for that column, coerced
to the column's declared kind. The alignment claims compare the row
`predict` actually builds against this. -/
def alignedOf (cols : List (String × String)) (record : List (String × Value)) :
    Option (List Value) :=
  match cols with
  | [] => some []
  | c :: rest =>
    match (lookupField record c.1).bind (coerceValue (dtype_mapping c.2)),
        alignedOf rest record with
    | some v, some vs => some (v :: vs)
    | _, _ => none

/-! ## Lookup lemmas -/

theorem lookupField_eq_none_iff (r : List (String × Value)) (k : String) :
    lookupField r k = none ↔ ∀ p ∈ r, p.1 ≠ k := by
  induction r with
  | nil => simp [lookupField]
  | cons p rest ih =>
    by_cases h : p.1 = k <;> simp [lookupField, h, ih]

theorem lookupField_isSome_of_mem_keys {r : List (String × Value)} {k : String}
    (h : k ∈ r.map Prod.fst) : (lookupField r k).isSome = true := by
  induction r with
  | nil => simp at h
  | cons p rest ih =>
    by_cases hp : p.1 = k
    · simp [lookupField, hp]
    · simp only [List.map_cons, List.mem_cons] at h
      rcases h with h | h

      · exact absurd h.symm hp
      · simp [lookupField, hp, ih h]

theorem mem_of_lookupField_eq_some {r : List (String × Value)} {k : String}
    {v : Value} (h : lookupField r k = some v) : (k, v) ∈ r := by
  induction r with
  | nil => simp [lookupField] at h
  | cons p rest ih =>
    obtain ⟨a, b⟩ := p
    by_cases hp : a = k
    · subst hp
      simp only [lookupField, if_pos, Option.some.injEq] at h
      subst h
      exact List.mem_cons_self _ _
    · simp only [lookupField, hp, if_false, if_neg, not_false_iff] at h
      exact List.mem_cons_of_mem _ (ih h)

theorem lookupField_eq_some_of_mem {r : List (String × Value)} {k : String}
    {v : Value} (hnd : (r.map Prod.fst).Nodup) (hm : (k, v) ∈ r) :
    lookupField r k = some v := by
  induction r with
  | nil => simp at hm
  | cons p rest ih =>
    simp only [List.map_cons, List.nodup_cons] at hnd
    rcases List.mem_cons.mp hm with h | h
    · cases h
      simp [lookupField]
    · have hk : k ∈ rest.map Prod.fst := List.mem_map.mpr ⟨(k, v), h, rfl⟩
      have hne : p.1 ≠ k := fun e => hnd.1 (e ▸ hk)
      simp [lookupField, hne, ih hnd.2 h]

/-- Two requests with the same field/value multiset and no duplicate keys
look up identically. -/
theorem lookupField_perm {r1 r2 : List (String × Value)} (hperm : r1.Perm r2)
    (hnd : (r1.map Prod.fst).Nodup) (k : String) :
    lookupField r1 k = lookupField r2 k := by
  have hnd2 : (r2.map Prod.fst).Nodup := ((hperm.map Prod.fst).nodup_iff).mp hnd
  cases h : lookupField r1 k with
  | some v =>
    exact (lookupField_eq_some_of_mem hnd2
      (hperm.mem_iff.mp (mem_of_lookupField_eq_some h))).symm
  | none =>
    rw [lookupField_eq_none_iff] at h
    symm
    rw [lookupField_eq_none_iff]
    exact fun p hp => h p (hperm.mem_iff.mpr hp)

/-- Filtering away pairs the predicate rejects does not change lookups of
keys every pair with that key satisfies. -/
theorem lookupField_filter (r : List (String × Value))
    (p : String × Value → Bool) (k : String)
    (hp : ∀ q : String × Value, q.1 = k → p q = true) :
    lookupField (r.filter p) k = lookupField r k := by
  induction r with
  | nil => rfl
  | cons q rest ih =>
    by_cases hqk : q.1 = k
    · rw [List.filter_cons, hp q hqk]
      simp [lookupField, hqk]
    · rw [List.filter_cons]
      cases hpq : p q
      · simp [lookupField, hqk, ih]
      · simp [lookupField, hqk, ih]

/-! ## Validation lemmas -/

theorem fieldError_eq_none_iff (r : List (String × Value))
    (f : String × FieldKind) :
    fieldError r f = none ↔
      ((lookupField r f.1).bind (coerceValue f.2)).isSome = true := by
  unfold fieldError
  cases h : lookupField r f.1 with
  | none => simp
  | some v =>
    cases hc : coerceValue f.2 v <;> simp [Option.bind, hc]

theorem validationErrors_eq_nil_iff (schema : List (String × FieldKind))
    (r : List (String × Value)) :
    validationErrors schema r = [] ↔ validRecord schema r := by
  unfold validationErrors validRecord
  rw [List.filterMap_eq_nil_iff]
  exact forall₂_congr fun f _ => fieldError_eq_none_iff r f

theorem dumpedRecord_keys {schema : List (String × FieldKind)}
    {r : List (String × Value)} (hv : validRecord schema r) :
    (dumpedRecord schema r).map Prod.fst = schema.map Prod.fst := by
  induction schema with
  | nil => rfl
  | cons f rest ih =>
    have hf := hv f (List.mem_cons_self f rest)
    obtain ⟨v, hveq⟩ := Option.isSome_iff_exists.mp hf
    have hrest : validRecord rest r := fun g hg =>
      hv g (List.mem_cons_of_mem f hg)
    unfold dumpedRecord
    rw [List.filterMap_cons, hveq]
    simpa [dumpedRecord] using ih hrest

theorem feature_types_keys (cols : List (String × String)) :
    (feature_types cols).map Prod.fst = cols.map Prod.fst := by
  simp [feature_types]

/-- Under no-duplicate schema names and a valid record, looking a schema
field up in the dumped model gives the coerced request value for it. -/
theorem lookupField_dumpedRecord {schema : List (String × FieldKind)}
    {r : List (String × Value)} (hnd : (schema.map Prod.fst).Nodup)
    (hv : validRecord schema r) {f : String × FieldKind} (hf : f ∈ schema) :
    lookupField (dumpedRecord schema r) f.1 =
      (lookupField r f.1).bind (coerceValue f.2) := by
  induction schema with
  | nil => simp at hf
  | cons g rest ih =>
    have hg := hv g (List.mem_cons_self g rest)
    obtain ⟨v, hveq⟩ := Option.isSome_iff_exists.mp hg
    have hrest : validRecord rest r := fun q hq =>
      hv q (List.mem_cons_of_mem g hq)
    simp only [List.map_cons, List.nodup_cons] at hnd
    unfold dumpedRecord
    rw [List.filterMap_cons, hveq]
    rcases List.mem_cons.mp hf with h | h
    · cases h
      simp [lookupField, hveq]
    · have hk : f.1 ∈ rest.map Prod.fst := List.mem_map.mpr ⟨f, h, rfl⟩
      have hne : g.1 ≠ f.1 := fun e => hnd.1 (e ▸ hk)
      simpa [lookupField, hne, dumpedRecord] using ih hnd.2 hrest h

/-! ## Predict helpers -/

theorem validateInput_eq_ok {schema : List (String × FieldKind)}
    {r : List (String × Value)} (hv : validRecord schema r) :
    validateInput schema r = Except.ok (dumpedRecord schema r) := by
  unfold validateInput
  rw [(validationErrors_eq_nil_iff schema r).mpr hv]

theorem validateInput_eq_error {schema : List (String × FieldKind)}
    {r : List (String × Value)} (hne : validationErrors schema r ≠ []) :
    validateInput schema r = Except.error (validationErrors schema r) := by
  unfold validateInput
  cases h : validationErrors schema r with
  | nil => exact absurd h hne
  | cons a t => rfl

theorem reindexRow_isSome {cols : List String} {r : List (String × Value)}
    (h : ∀ c ∈ cols, (lookupField r c).isSome = true) :
    (reindexRow cols r).isSome = true := by
  induction cols with
  | nil => rfl
  | cons c rest ih =>
    obtain ⟨v, hv2⟩ := Option.isSome_iff_exists.mp (h c (List.mem_cons_self _ _))
    obtain ⟨vs, hvs⟩ :=
      Option.isSome_iff_exists.mp (ih fun q hq => h q (List.mem_cons_of_mem _ hq))
    simp [reindexRow, hv2, hvs]

theorem alignedOf_isSome {cols : List (String × String)}
    {r : List (String × Value)} (hv : validRecord (feature_types cols) r) :
    (alignedOf cols r).isSome = true := by
  induction cols with
  | nil => rfl
  | cons c rest ih =>
    have hcons : feature_types (c :: rest)
        = (c.1, dtype_mapping c.2) :: feature_types rest := rfl
    rw [hcons] at hv
    have hc := hv (c.1, dtype_mapping c.2) (List.mem_cons_self _ _)
    obtain ⟨v, hveq⟩ := Option.isSome_iff_exists.mp hc
    have hrest := ih (fun f hf => hv f (List.mem_cons_of_mem _ hf))
    obtain ⟨vs, hvs⟩ := Option.isSome_iff_exists.mp hrest
    simp only at hveq
    simp [alignedOf, hveq, hvs]

/-- If looking each training column up in `d` gives the coerced raw-request
value for it, then re-aligning `d` to the training column order gives
exactly the row read off the raw request in training order. -/
theorem reindexRow_eq_alignedOf {cols : List (String × String)}
    {d r : List (String × Value)}
    (h : ∀ c ∈ cols, lookupField d c.1 =
      (lookupField r c.1).bind (coerceValue (dtype_mapping c.2))) :
    reindexRow (cols.map Prod.fst) d = alignedOf cols r := by
  induction cols with
  | nil => rfl
  | cons c rest ih =>
    have hc := h c (List.mem_cons_self _ _)
    have hrest := ih (fun q hq => h q (List.mem_cons_of_mem _ hq))
    simp only [List.map_cons]
    unfold reindexRow alignedOf
    rw [hc, hrest]

/-- A valid request always reaches the model: validation passes, the
re-alignment to `X.columns` succeeds, and the response is the resolved
label of the model's raw code on the aligned row. -/
theorem predict_ok_of_validRecord (st : AppState) (r : List (String × Value))
    (hv : validRecord (feature_types st.cols) r) :
    ∃ row, reindexRow (st.cols.map Prod.fst)
        (dumpedRecord (feature_types st.cols) r) = some row ∧
      predict st r = PredictResult.ok (resolveLabel (st.modelPredict row)) := by
  have hkeys : (dumpedRecord (feature_types st.cols) r).map Prod.fst
      = st.cols.map Prod.fst := by
    rw [dumpedRecord_keys hv, feature_types_keys]
  have hre : (reindexRow (st.cols.map Prod.fst)
      (dumpedRecord (feature_types st.cols) r)).isSome = true := by
    apply reindexRow_isSome
    intro c hc
    exact lookupField_isSome_of_mem_keys (hkeys ▸ hc)
  obtain ⟨row, hrow⟩ := Option.isSome_iff_exists.mp hre
  refine ⟨row, hrow, ?_⟩
  unfold predict
  rw [validateInput_eq_ok hv]
  simp only [hrow]

/-- With no duplicate training column names, the row `predict` re-assembles
is exactly the request's values read in training column order. -/
theorem reindexRow_dumped_eq_alignedOf {cols : List (String × String)}
    {r : List (String × Value)} (hnd : (cols.map Prod.fst).Nodup)
    (hv : validRecord (feature_types cols) r) :
    reindexRow (cols.map Prod.fst) (dumpedRecord (feature_types cols) r)
      = alignedOf cols r := by
  apply reindexRow_eq_alignedOf
  intro c hc
  have hndschema : ((feature_types cols).map Prod.fst).Nodup := by
    rw [feature_types_keys]; exact hnd
  have hmem : (c.1, dtype_mapping c.2) ∈ feature_types cols :=
    List.mem_map.mpr ⟨c, hc, rfl⟩
  exact lookupField_dumpedRecord hndschema hv hmem

/-! ## Congruence: the handlers read the request only through lookups -/

theorem validationErrors_congr {schema : List (String × FieldKind)}
    {r1 r2 : List (String × Value)}
    (h : ∀ f ∈ schema, lookupField r1 f.1 = lookupField r2 f.1) :
    validationErrors schema r1 = validationErrors schema r2 :=
  List.filterMap_congr (fun f hf => by unfold fieldError; rw [h f hf])

theorem dumpedRecord_congr {schema : List (String × FieldKind)}
    {r1 r2 : List (String × Value)}
    (h : ∀ f ∈ schema, lookupField r1 f.1 = lookupField r2 f.1) :
    dumpedRecord schema r1 = dumpedRecord schema r2 :=
  List.filterMap_congr (fun f hf => by rw [h f hf])

theorem predict_congr (st : AppState) {r1 r2 : List (String × Value)}
    (h : ∀ f ∈ feature_types st.cols, lookupField r1 f.1 = lookupField r2 f.1) :
    predict st r1 = predict st r2 := by
  unfold predict
  unfold validateInput
  rw [validationErrors_congr h, dumpedRecord_congr h]

/-! ## Claims -/

/-- C1: For every validated request record, `predict` builds the single row
passed to the model by reading the record's field values in FeatureSpec
(training column) order, not the order the fields arrived in; in
particular, with FeatureSpec = [(revenue, Float), (debt_ratio, Float),
(employees, Integer)], the request {"employees": 50, "revenue": 12.5,
"debt_ratio": 0.3} is aligned to the row [12.5, 0.3, 50] before the model
is invoked (the model sees exactly that row, whatever function it is). -/
theorem predict_reads_fields_in_featurespec_order :
    (∀ (st : AppState) (r : List (String × Value)),
      (st.cols.map Prod.fst).Nodup → validRecord (feature_types st.cols) r →
      ∃ row, alignedOf st.cols r = some row ∧
        predict st r = PredictResult.ok (resolveLabel (st.modelPredict row))) ∧
    alignedOf exampleCols exampleRequest
      = some [Value.vFloat 12.5, Value.vFloat 0.3, Value.vInt 50] ∧
    (∀ m : List Value → ℤ, predict ⟨exampleCols, m⟩ exampleRequest
      = PredictResult.ok (resolveLabel
          (m [Value.vFloat 12.5, Value.vFloat 0.3, Value.vInt 50]))) := by
  refine ⟨?_, rfl, fun m => rfl⟩
  intro st r hnd hv
  obtain ⟨row, hrow, hp⟩ := predict_ok_of_validRecord st r hv
  rw [reindexRow_dumped_eq_alignedOf hnd hv] at hrow
  exact ⟨row, hrow, hp⟩

theorem predict_reads_fields_in_featurespec_order_witness :
    predict ⟨exampleCols, fun _ => 1⟩ exampleRequest
      = PredictResult.ok "stock_value_increase" := by
  obtain ⟨row, hrow, hp⟩ := predict_reads_fields_in_featurespec_order.1
    ⟨exampleCols, fun _ => 1⟩ exampleRequest (by decide) (by decide)
  rw [hp]
  rfl

/-- C2: Submitting the same field/value set in two different key orders
yields identical predictions: validation is by field name and alignment is
by FeatureSpec order, so the declared key order never influences the
result. -/
theorem predict_key_order_invariant (st : AppState)
    (r1 r2 : List (String × Value)) (hperm : r1.Perm r2)
    (hnd : (r1.map Prod.fst).Nodup) :
    predict st r1 = predict st r2 :=
  predict_congr st (fun f _ => lookupField_perm hperm hnd f.1)

theorem predict_key_order_invariant_witness :
    predict ⟨exampleCols, fun _ => 0⟩ exampleRequest
      = predict ⟨exampleCols, fun _ => 0⟩
        [("revenue", Value.vFloat 12.5), ("debt_ratio", Value.vFloat 0.3),
         ("employees", Value.vInt 50)] :=
  predict_key_order_invariant ⟨exampleCols, fun _ => 0⟩ exampleRequest
    [("revenue", Value.vFloat 12.5), ("debt_ratio", Value.vFloat 0.3),
     ("employees", Value.vInt 50)]
    (@List.perm_append_comm (String × Value) [("employees", Value.vInt 50)]
      [("revenue", Value.vFloat 12.5), ("debt_ratio", Value.vFloat 0.3)])
    (by decide)

/-- C3: A request missing a required field is rejected with a validation
error naming that field, and the model is never invoked: the outcome is the
same `validationError` for every model function, so the loaded model's
predict operation contributes nothing to it. -/
theorem predict_missing_field_rejected (cols : List (String × String))
    (r : List (String × Value)) (name : String)
    (hmem : name ∈ cols.map Prod.fst)
    (hmiss : ∀ p ∈ r, p.1 ≠ name) :
    name ∈ validationErrors (feature_types cols) r ∧
      ∀ m : List Value → ℤ, predict ⟨cols, m⟩ r
        = PredictResult.validationError
            (validationErrors (feature_types cols) r) := by
  have hlook : lookupField r name = none :=
    (lookupField_eq_none_iff r name).mpr hmiss
  obtain ⟨c, hc, rfl⟩ := List.mem_map.mp hmem
  have hmemft : (c.1, dtype_mapping c.2) ∈ feature_types cols :=
    List.mem_map.mpr ⟨c, hc, rfl⟩
  have herr : fieldError r (c.1, dtype_mapping c.2) = some c.1 := by
    unfold fieldError
    rw [hlook]
  have hin : c.1 ∈ validationErrors (feature_types cols) r :=
    List.mem_filterMap.mpr ⟨_, hmemft, herr⟩
  refine ⟨hin, fun m => ?_⟩
  unfold predict
  rw [validateInput_eq_error (List.ne_nil_of_mem hin)]

theorem predict_missing_field_rejected_witness :
    "debt_ratio" ∈ validationErrors (feature_types exampleCols)
      [("employees", Value.vInt 50), ("revenue", Value.vFloat 12.5)] ∧
    predict ⟨exampleCols, fun _ => 0⟩
        [("employees", Value.vInt 50), ("revenue", Value.vFloat 12.5)]
      = PredictResult.validationError
          (validationErrors (feature_types exampleCols)
            [("employees", Value.vInt 50), ("revenue", Value.vFloat 12.5)]) := by
  have h := predict_missing_field_rejected exampleCols
    [("employees", Value.vInt 50), ("revenue", Value.vFloat 12.5)]
    "debt_ratio" (by decide) (by decide)
  exact ⟨h.1, h.2 (fun _ => 0)⟩

/-- C4: The raw class code is resolved through the fixed mapping
{0 → stock_value_decrease, 1 → stock_value_increase}; every code outside
{0, 1} resolves to "Unknown", and a model returning e.g. 2 yields the
successful response {"prediction": "Unknown"} rather than a failure. -/
theorem prediction_mapping_and_unknown_fallback :
    prediction_mapping 0 = some "stock_value_decrease" ∧
    prediction_mapping 1 = some "stock_value_increase" ∧
    (∀ c : ℤ, c ≠ 0 → c ≠ 1 →
      prediction_mapping c = none ∧ resolveLabel c = "Unknown") ∧
    predict ⟨exampleCols, fun _ => 2⟩ exampleRequest
      = PredictResult.ok "Unknown" ∧
    (∀ (st : AppState) (r : List (String × Value)) (lab : String),
      st.modelPredict = (fun _ => 2) →
      predict st r = PredictResult.ok lab → lab = "Unknown") := by
  refine ⟨rfl, rfl, ?_, rfl, ?_⟩
  · intro c h0 h1
    unfold resolveLabel prediction_mapping
    simp [h0, h1]
  · intro st r lab hm hp
    unfold predict at hp
    cases hval : validateInput (feature_types st.cols) r with
    | error errs => simp [hval] at hp
    | ok dumped =>
      cases hre : reindexRow (st.cols.map Prod.fst) dumped with
      | none => simp [hval, hre] at hp
      | some row =>
        simp only [hval, hre] at hp
        rw [hm] at hp
        have : resolveLabel 2 = "Unknown" := rfl
        rw [this] at hp
        exact (PredictResult.ok.injEq _ _ ▸ hp).symm

theorem prediction_mapping_and_unknown_fallback_witness :
    (2 : ℤ) ≠ 0 ∧ (2 : ℤ) ≠ 1 ∧ resolveLabel 2 = "Unknown" ∧
      ("Unknown" : String) = "Unknown" := by
  have h := prediction_mapping_and_unknown_fallback
  exact ⟨by decide, by decide, (h.2.2.1 2 (by decide) (by decide)).2,
    h.2.2.2.2 ⟨exampleCols, fun _ => 2⟩ exampleRequest "Unknown" rfl h.2.2.2.1⟩

/-- C5: For every valid request record (no duplicate keys, one correctly
typed value per schema field), `predict` never throws: it returns a
successful response whose label is one of stock_value_decrease,
stock_value_increase, Unknown. -/
theorem predict_valid_never_throws (st : AppState) (r : List (String × Value))
    (_hone : (r.map Prod.fst).Nodup)
    (hv : validRecord (feature_types st.cols) r) :
    ∃ label, predict st r = PredictResult.ok label ∧
      label ∈ ["stock_value_decrease", "stock_value_increase", "Unknown"] := by
  obtain ⟨row, _, hp⟩ := predict_ok_of_validRecord st r hv
  refine ⟨_, hp, ?_⟩
  unfold resolveLabel prediction_mapping
  by_cases h0 : st.modelPredict row = 0
  · simp [h0]
  · by_cases h1 : st.modelPredict row = 1 <;> simp [h0, h1]

theorem predict_valid_never_throws_witness :
    ∃ label, predict ⟨exampleCols, fun _ => 0⟩ exampleRequest
        = PredictResult.ok label ∧
      label ∈ ["stock_value_decrease", "stock_value_increase", "Unknown"] :=
  predict_valid_never_throws ⟨exampleCols, fun _ => 0⟩ exampleRequest
    (by decide) (by decide)

/-- C6: Failed model loading at startup distinguishes the artifact-not-found
case from the present-but-unreadable/corrupt case: each produces its own
clear diagnostic (the first names the missing artifact file, the second
reports the load exception), the two diagnostics are never equal, and both
cases make `startup` produce `Except.error` — by constructor disjointness
never the `Except.ok` serving state, so the process never begins accepting
requests. The last conjunct shows only a successfully loaded model yields a
serving state. -/
theorem startup_failure_fatal_and_distinguished :
    (∀ (M : Type) (cols : List (String × String)),
      startup cols (LoadOutcome.fileNotFound : LoadOutcome M)
        = Except.error "Model file 'xgboost_model.joblib' not found.") ∧
    (∀ (M : Type) (cols : List (String × String)) (e : String),
      startup cols (LoadOutcome.loadError e : LoadOutcome M)
        = Except.error ("Error loading model: " ++ e)) ∧
    (∀ e : String,
      (("Model file 'xgboost_model.joblib' not found." : String)
        == "Error loading model: " ++ e) = false) ∧
    (∀ (M : Type) (cols : List (String × String)) (m : M),
      startup cols (LoadOutcome.loaded m)
        = Except.ok (feature_types cols, m)) := by
  refine ⟨fun M cols => rfl, fun M cols e => rfl, ?_, fun M cols m => rfl⟩
  intro e
  rw [beq_eq_false_iff_ne]
  intro h
  have h2 : ("Model file 'xgboost_model.joblib' not found." : String).data
      = ("Error loading model: " : String).data ++ e.data := by
    rw [h]
    simp [String.data_append]
  have h3 : ('M' : Char) = 'E' := by
    have := congrArg List.head? h2
    simp at this
  exact absurd h3 (by decide)

/-- C7: `health` takes no request input and never throws — it is total even
when the model global is absent (`none`) or bound to `None` (`some none`),
reporting `model_loaded := false` in those cases — and always returns the
payload shape {"status": "ok", "model_loaded": bool, "n_features":
int-or-null}, where n_features is the FeatureSpec length whenever
`len(X.columns)` evaluates, and null when it cannot be determined. -/
theorem health_shape_and_model_loaded (M : Type) (mg : Option (Option M))
    (lenRes : Except String ℕ) (cols : List (String × String)) (e : String) :
    (health mg lenRes).status = "ok" ∧
    ((mg = none ∨ mg = some none) → (health mg lenRes).model_loaded = false) ∧
    (∀ h : M, mg = some (some h) → (health mg lenRes).model_loaded = true) ∧
    (health mg (Except.ok (cols.map Prod.fst).length)).n_features
      = some (feature_types cols).length ∧
    (health mg (Except.error e)).n_features = none := by
  refine ⟨rfl, ?_, ?_, ?_, rfl⟩
  · rintro (rfl | rfl) <;> rfl
  · rintro h rfl
    rfl
  · show some (cols.map Prod.fst).length = some (feature_types cols).length
    simp [feature_types]

theorem health_shape_and_model_loaded_witness :
    (health (none : Option (Option Unit)) (Except.error "boom")).model_loaded
        = false ∧
    (health (none : Option (Option Unit)) (Except.error "boom")).status
        = "ok" ∧
    (health (none : Option (Option Unit)) (Except.error "boom")).n_features
        = none ∧
    (health (some (some ())) (Except.error "boom")).model_loaded = true := by
  have h := health_shape_and_model_loaded Unit none (Except.error "boom")
    exampleCols "boom"
  have h2 := health_shape_and_model_loaded Unit (some (some ()))
    (Except.error "boom") exampleCols "boom"
  exact ⟨h.2.1 (Or.inl rfl), h.1, h.2.2.2.2, h2.2.2.1 () rfl⟩

/-- C8: The schema builder maps the dataset's float dtype (float64) to the
Float kind and its integer dtypes (int64, and 8-bit unsigned uint8) to the
Integer kind; any other dtype keeps its opaque string label instead of
being rejected. `feature_types` is a pure function of the ordered listing,
so running it twice on the same listing trivially yields an identical
schema; the last conjunct shows it preserves the listing's column order. -/
theorem schema_builder_dtype_mapping_policy :
    dtype_mapping "float64" = FieldKind.float ∧
    dtype_mapping "int64" = FieldKind.int ∧
    dtype_mapping "uint8" = FieldKind.int ∧
    (∀ d : String, d ≠ "float64" → d ≠ "int64" → d ≠ "uint8" →
      dtype_mapping d = FieldKind.rawLabel d) ∧
    (∀ cols : List (String × String),
      (feature_types cols).map Prod.fst = cols.map Prod.fst) := by
  refine ⟨by decide, by decide, by decide, ?_, feature_types_keys⟩
  intro d h1 h2 h3
  unfold dtype_mapping
  simp [h1, h2, h3]

theorem schema_builder_dtype_mapping_policy_witness :
    ("category" : String) ≠ "float64" ∧
    dtype_mapping "category" = FieldKind.rawLabel "category" := by
  have h := schema_builder_dtype_mapping_policy
  exact ⟨by decide,
    h.2.2.2.1 "category" (by decide) (by decide) (by decide)⟩

/-- C9: A request holding all required fields plus additional unknown
fields is not rejected: pydantic's default config drops unknown keys and
only schema fields reach alignment, so the prediction equals the one for
the same record with the extra fields removed, and the request still
succeeds. -/
theorem predict_ignores_extra_fields (st : AppState)
    (r : List (String × Value))
    (hv : validRecord (feature_types st.cols) r) :
    predict st r
      = predict st (keepSchemaFields (feature_types st.cols) r) ∧
    ∃ label, predict st r = PredictResult.ok label := by
  constructor
  · apply predict_congr
    intro f hf
    have heq : lookupField (keepSchemaFields (feature_types st.cols) r) f.1
        = lookupField r f.1 := by
      unfold keepSchemaFields
      apply lookupField_filter
      intro q hq
      rw [hq]
      exact decide_eq_true (List.mem_map.mpr ⟨f, hf, rfl⟩)
    rw [heq]
  · obtain ⟨row, _, hp⟩ := predict_ok_of_validRecord st r hv
    exact ⟨_, hp⟩

theorem predict_ignores_extra_fields_witness :
    predict ⟨exampleCols, fun _ => 0⟩
        (("sector", Value.vInt 3) :: exampleRequest)
      = predict ⟨exampleCols, fun _ => 0⟩
          (keepSchemaFields (feature_types exampleCols)
            (("sector", Value.vInt 3) :: exampleRequest)) ∧
    ∃ label, predict ⟨exampleCols, fun _ => 0⟩
        (("sector", Value.vInt 3) :: exampleRequest)
      = PredictResult.ok label :=
  predict_ignores_extra_fields ⟨exampleCols, fun _ => 0⟩
    (("sector", Value.vInt 3) :: exampleRequest) (by decide)

/-- C10: In the service as built, every derived schema field has kind
Float: the schema is read off the dataframe reconstructed after median
imputation, whose columns are all float64 whatever the original column
dtypes were, so the Integer branch and the raw-label fallback of
`dtype_mapping` are never taken and originally integer-typed features are
declared (and hence accepted) as floats. -/
theorem deployed_schema_all_float (cols : List (String × String))
    (f : String × FieldKind) (hf : f ∈ feature_types (imputedCols cols)) :
    f.2 = FieldKind.float := by
  unfold feature_types imputedCols at hf
  rw [List.map_map] at hf
  obtain ⟨c, _, rfl⟩ := List.mem_map.mp hf
  rfl

theorem deployed_schema_all_float_witness :
    (("ebitda", FieldKind.float) : String × FieldKind).2 = FieldKind.float :=
  deployed_schema_all_float [("ebitda", "int64")] ("ebitda", FieldKind.float)
    (by decide)

end StockService
